import Mathlib

/-!
Verification development for the outreach-dispatch core of
`send_DMs.py` (outrage_classification_stream).

The definitions below are a shallow embedding of the source:

* rows of the cleaned tweet dataframe (`Row`),
* per-user tweet selection (`get_tweet_info`, lines 169-238, with
  `np.argmin` embedded as `argminIdx`),
* the candidate-building loop of `main` Part I (lines 505-545),
* the permission helper `see_friend_and_DM_status` (lines 240-320),
* the load of the users-DMed ledger file (lines 549-573),
* the dispatch loop of `main` Part II (lines 583-675) together with the
  end-of-run exports (lines 680-703).

Timestamps (`created_at`) are modelled as naturals in an
ordering-preserving way (the source parses `%Y-%m-%d %H:%M:%S` strings to
`datetime` objects and only compares them).  Classifier probabilities
(`gru_prob`) are modelled as rationals.  External effects (the Twitter
API and S3) are modelled by boolean oracles indexed by loop iteration.
-/

/-- One row of the cleaned/classified tweet dataframe loaded in `main`
(columns `user_id`, `tweet_id`, `user_screen_name`, `text`,
`created_at`, `gru_prob`). -/
structure Row where
  user_id : Nat
  tweet_id : Nat
  user_screen_name : String
  text : String
  created_at : Nat
  gru_prob : ℚ
deriving DecidableEq, Repr

/-- Inner loop of `np.argmin`: `bi` is the index of the best (smallest)
value seen so far, `bv` its value, `i` the index of the head of the
remaining list.  A new value replaces the best only when strictly
smaller, so the first occurrence of the minimum wins — exactly
the documented behaviour of `np.argmin`. -/
def argminGo (bi bv i : Nat) : List Nat → Nat
  | [] => bi
  | y :: ys => if y < bv then argminGo i y (i + 1) ys else argminGo bi bv (i + 1) ys

/-- `np.argmin` over a list of naturals: index of the first occurrence of
the minimum (`0` on the empty list, where the source never calls it). -/
def argminIdx : List Nat → Nat
  | [] => 0
  | x :: xs => argminGo 0 x 1 xs

/-- `get_tweet_info(data, user_id)` (lines 169-238): restrict `data` to
the rows of `user_id`; with no rows the source returns an error string
(modelled `none`, the caller skips the row via `ValueError`); with one
row that row is used; with several rows the row at
`np.argmin` over the `created_at` column is used.  `argminIdx` of a
singleton is `0`, so the one-row case is subsumed. -/
def get_tweet_info (data : List Row) (uid : Nat) : Option Row :=
  let filtered_data := data.filter (fun r => r.user_id == uid)
  filtered_data.get? (argminIdx (filtered_data.map Row.created_at))

/-- Part I loop of `main` (lines 505-535): iterate over the `user_id` column of `data`
— i.e. over every row — and append the result of
`get_tweet_info(data, user_id)` for the user of that row; rows whose lookup
fails are skipped (`ValueError` branch, line 529). -/
def buildOutrageUsersInfo (data : List Row) : List Row :=
  data.filterMap (fun row => get_tweet_info data row.user_id)

/-- The hard-coded classifier-probability threshold of line 544
(`gru_prob > 0.95` on `outrage_users_info`), written as the reduced
rational `19/20` so that the filter evaluates by kernel reduction;
`score_threshold_eq` identifies it with `95 / 100`. -/
def score_threshold : ℚ := ⟨19, 20, by decide, by decide⟩

/-- The threshold literal denotes `0.95`. -/
lemma score_threshold_eq : score_threshold = 95 / 100 := by
  have h1 : score_threshold = Rat.divInt 19 20 := Rat.mk'_eq_divInt
  rw [h1, Rat.divInt_eq_div]
  norm_num

/-- `outrage_users_info` as it stands after line 545: the per-row
candidates of Part I filtered by `gru_prob > 0.95`. -/
def outrage_users_info (data : List Row) : List Row :=
  (buildOutrageUsersInfo data).filter (fun r => score_threshold < r.gru_prob)

/-- `see_friend_and_DM_status` (lines 240-320), after the
`show_friendship` call succeeded.  Inputs are the platform-reported
relationship facts: `followed_by`/`following` from the friendship JSON
and `can_dm` its explicit DM-capability flag; `follow_request_sent` is
the pending-request flag fetched when `you_follow_them` is false.
Output mirrors the return tuple of the source `(you_follow_them,
they_follow_you, pending_follow_request, can_DM)`.  Note lines 305-308:
the mutual-relationship test is evaluated first; the platform flag
`can_dm` is only consulted in the `else` branch. -/
def see_friend_and_DM_status (followed_by following can_dm follow_request_sent : Bool) :
    Bool × Bool × Bool × Bool :=
  let you_follow_them := followed_by
  let they_follow_you := following
  let pending_follow_request := if !you_follow_them then follow_request_sent else false
  let can_DM := if you_follow_them && they_follow_you then true else can_dm
  (you_follow_them, they_follow_you, pending_follow_request, can_DM)

/-- The resolver the spec describes (§4.3), for comparison with
`see_friend_and_DM_status`: "1. If `dm_capable` is explicitly reported
by the platform → use it directly.  2. Else if `follows_viewer &&
viewer_follows` (mutual relationship) → `dm_capable = true`.  3. Else →
`dm_capable = false`." -/
def specResolve_dm_capable (dm_capable : Option Bool) (follows_viewer viewer_follows : Bool) :
    Bool :=
  match dm_capable with
  | some b => b
  | none => follows_viewer && viewer_follows

/-- Lines 549-566: the users-DMed ledger file is fetched from S3 inside
a `try`, and an extraction failure is caught and merely printed, so the
step itself returns whatever local file the fetch produced (`none` when
the object is absent). -/
def importUsersDMedStep (stored : Option (List Nat)) : Option (List Nat) :=
  stored

/-- `pd.read_csv` of the local ledger file (line 569): succeeds on a
present file, raises `FileNotFoundError` — uncaught in `main` — when
the file is absent. -/
def read_csv_users_DMed (localFile : Option (List Nat)) : Except String (List Nat) :=
  match localFile with
  | some rows => Except.ok rows
  | none => Except.error "FileNotFoundError"

/-- The whole ledger-load sequence of lines 549-570: fetch attempt
(errors caught and logged) followed by the unguarded `pd.read_csv`.
`stored` is the ledger object in the external store (`none` = absent);
the result is the loaded `df_users_DMed` user-id column, or the
uncaught exception that terminates the run. -/
def loadUsersDMed (stored : Option (List Nat)) : Except String (List Nat) :=
  read_csv_users_DMed (importUsersDMedStep stored)

/-- `seconds_waiting = 15 * 60` (line 619): the whole-loop pause applied
by the `tweepy.error.TweepError` handler before the loop continues. -/
def seconds_waiting : Nat := 15 * 60

/-- Lines 595-599: the call to `see_friend_and_DM_status` is commented
out in the source, and the loop instead assigns the constants
`you_follow_them = True`, `they_folow_you = True`,
`pending_follow_request = False`, `can_DM = True` for every candidate
not found in the loaded ledger. -/
def friend_status_defaults : Bool × Bool × Bool × Bool :=
  (true, true, false, true)

/-- Per-candidate outcome of one pass of the dispatch loop, labelled by
the branch of lines 583-675 that handled the candidate (the source only
prints these; the labels make the trace explicit).
`deferredRateLimit` carries the length of the whole-loop sleep taken by
the handler of lines 606-622; `failedPermanent` carries whether the
best-effort fallback `send_friend_request` (lines 657-665) succeeded. -/
inductive Status where
  | sent : Status
  | skippedPrev : Status
  | deferredRateLimit : Nat → Status
  | otherError : Status
  | failedPermanent : Bool → Status
  | skippedCannotDM : Status
  | unknownCannotDM : Status
deriving DecidableEq, Repr

/-- External-effect oracles for one run of the dispatch loop, indexed by
the loop counter `i`: whether the body of the `try` of lines 592-604
raises `tweepy.error.TweepError` at iteration `i` (unreachable in the
current source since the only API call of that block, line 595, is
commented out — the handler of lines 606-622 is kept as written),
whether it raises any other exception (handler of lines 623-626),
whether `api.send_direct_message` inside `send_DM_to_user` succeeds,
and whether `api.create_friendship` inside `send_friend_request`
succeeds. -/
structure Oracles where
  tweepErr : Nat → Bool
  otherErr : Nat → Bool
  sendOk : Nat → Bool
  friendOk : Nat → Bool

/-- One iteration of the dispatch loop of `main` Part II (lines
583-675) for the candidate `uid` at loop counter `i`.  `prev` is
`user_ids_previously_messaged`, the set frozen from the loaded ledger at
line 573; `df` is the current `df_users_DMed` user-id column.  Returns
the updated `df` and the outcome:

* a raised `TweepError` sleeps `seconds_waiting` seconds and `continue`s
  (lines 606-622); any other exception `continue`s (lines 623-626);
* a candidate already in `prev` `continue`s at line 604;
* otherwise `can_DM` is the constant of `friend_status_defaults`
  (lines 595-599), and the guard of line 642 re-checks `can_DM`, the
  frozen set, and the current `df_users_DMed` before sending;
* a successful send appends `uid` to `df_users_DMed` (lines 645-652);
  a failed send falls through to the friend-request fallback and leaves
  `df_users_DMed` unchanged (lines 654-665);
* the `else` of lines 667-675 records which message was printed. -/
def dispatchStep (prev : List Nat) (O : Oracles) (i : Nat) (uid : Nat) (df : List Nat) :
    List Nat × Status :=
  if O.tweepErr i then (df, Status.deferredRateLimit seconds_waiting)
  else if O.otherErr i then (df, Status.otherError)
  else if uid ∈ prev then (df, Status.skippedPrev)
  else
    let can_DM := friend_status_defaults.2.2.2
    if can_DM = true ∧ uid ∉ prev ∧ uid ∉ df then
      if O.sendOk i then (df ++ [uid], Status.sent)
      else (df, Status.failedPermanent (O.friendOk i))
    else if uid ∈ prev then (df, Status.skippedPrev)
    else if can_DM = false then (df, Status.skippedCannotDM)
    else (df, Status.unknownCannotDM)

/-- The dispatch loop from loop counter `i` on: processes the remaining
candidates in order, threading `df_users_DMed`, and returns the final
`df_users_DMed` together with the trace of `(user_id, outcome)` pairs in
processing order. -/
def runDispatchAux (prev : List Nat) (O : Oracles) :
    Nat → List Nat → List Nat → List Nat × List (Nat × Status)
  | _, df, [] => (df, [])
  | i, df, uid :: rest =>
    let step := dispatchStep prev O i uid df
    let tail := runDispatchAux prev O (i + 1) step.1 rest
    (tail.1, (uid, step.2) :: tail.2)

/-- One whole run of the dispatch loop (lines 583-675): at run start
`user_ids_previously_messaged` is exactly the user-id column of the
loaded `df_users_DMed` (line 573), so both start from `dfInit`. -/
def runDispatch (dfInit : List Nat) (O : Oracles) (cands : List Nat) :
    List Nat × List (Nat × Status) :=
  runDispatchAux dfInit O 0 dfInit cands

/-- Run-level events: per-candidate outcomes in loop order, followed by
the two end-of-run uploads of `main` — the outrage-users export (lines
688-694) and the users-DMed ledger export (lines 697-703). -/
inductive Event where
  | outcome : Nat → Status → Event
  | store_outrage_info_file : Event
  | store_users_DMed_file : Event
deriving DecidableEq, Repr

/-- The full observable trace of `main` Part II for one run: the
dispatch-loop outcomes in order, then the two uploads.  No store event
occurs anywhere inside the loop — persistence of `df_users_DMed`
happens only at lines 685/697-703, after the loop has finished. -/
def mainPartII_trace (dfInit : List Nat) (O : Oracles) (cands : List Nat) : List Event :=
  ((runDispatch dfInit O cands).2.map (fun p => Event.outcome p.1 p.2)) ++
    [Event.store_outrage_info_file, Event.store_users_DMed_file]

/-- Sequential runs of the program: each run imports the users-DMed
file exported by the previous run (lines 569/685), so both `df_users_DMed` and `user_ids_previously_messaged` of run `k + 1`
come from the final `df_users_DMed` of run `k`.  Returns the final ledger and the
concatenated outcome traces. -/
def multiRun : List Nat → List (Oracles × List Nat) → List Nat × List (Nat × Status)
  | df, [] => (df, [])
  | df, (O, cands) :: rest =>
    let run := runDispatch df O cands
    let tail := multiRun run.1 rest
    (tail.1, run.2 ++ tail.2)

/-- Does this outcome record a delivered DM? -/
def isSentOutcome : Status → Bool
  | Status.sent => true
  | _ => false

/-- Number of `sent` outcomes recorded for `uid` in a trace. -/
def countSentFor (uid : Nat) (tr : List (Nat × Status)) : Nat :=
  tr.countP (fun p => p.1 == uid && isSentOutcome p.2)

/-! ### Helper lemmas: first-occurrence minima (`np.argmin`) -/

/-- `argminGo` either keeps the incumbent best index (in which case the
incumbent value bounds the whole remaining list from below), or lands on
a position of the remaining list holding a value strictly below the
incumbent, strictly below everything before it in the remaining list,
and at most everything after it. -/
lemma argminGo_cases (xs : List Nat) : ∀ bi bv i : Nat,
    (argminGo bi bv i xs = bi ∧ ∀ x ∈ xs, bv ≤ x) ∨
    (∃ l₁ v l₂, xs = l₁ ++ v :: l₂ ∧ argminGo bi bv i xs = i + l₁.length ∧
      v < bv ∧ (∀ x ∈ l₁, v < x) ∧ (∀ x ∈ l₂, v ≤ x)) := by
  induction xs with
  | nil =>
    intro bi bv i
    left
    exact ⟨rfl, by intro x hx; cases hx⟩
  | cons y ys ih =>
    intro bi bv i
    by_cases h : y < bv
    · rcases ih i y (i + 1) with ⟨heq, hall⟩ | ⟨l₁, v, l₂, hsplit, heq, hlt, hbef, haft⟩
      · right
        refine ⟨[], y, ys, by simp, ?_, h, by simp, hall⟩
        simp [argminGo, h, heq]
      · right
        refine ⟨y :: l₁, v, l₂, by simp [hsplit], ?_, lt_trans hlt h, ?_, haft⟩
        · simp only [argminGo, if_pos h, heq, List.length_cons]
          omega
        · intro x hx
          rcases List.mem_cons.mp hx with rfl | hx
          · exact hlt
          · exact hbef x hx
    · rcases ih bi bv (i + 1) with ⟨heq, hall⟩ | ⟨l₁, v, l₂, hsplit, heq, hlt, hbef, haft⟩
      · left
        refine ⟨by simp [argminGo, h, heq], ?_⟩
        intro x hx
        rcases List.mem_cons.mp hx with rfl | hx
        · exact Nat.le_of_not_lt h
        · exact hall x hx
      · right
        refine ⟨y :: l₁, v, l₂, by simp [hsplit], ?_, hlt, ?_, haft⟩
        · simp only [argminGo, if_neg h, heq, List.length_cons]
          omega
        · intro x hx
          rcases List.mem_cons.mp hx with rfl | hx
          · exact lt_of_lt_of_le hlt (Nat.le_of_not_lt h)
          · exact hbef x hx

/-- First-occurrence-of-minimum characterisation of `argminIdx`: any
nonempty list splits at the returned index into a strict-majorant
prefix, the selected minimum, and a weak-majorant suffix. -/
lemma argminIdx_spec (l : List Nat) (hne : l ≠ []) :
    ∃ l₁ v l₂, l = l₁ ++ v :: l₂ ∧ argminIdx l = l₁.length ∧
      (∀ x ∈ l₁, v < x) ∧ (∀ x ∈ l₂, v ≤ x) := by
  match l with
  | [] => exact absurd rfl hne
  | x :: xs =>
    rcases argminGo_cases xs 0 x 1 with ⟨heq, hall⟩ | ⟨l₁, v, l₂, hsplit, heq, hlt, hbef, haft⟩
    · refine ⟨[], x, xs, by simp, ?_, by simp, hall⟩
      simp [argminIdx, heq]
    · refine ⟨x :: l₁, v, l₂, by simp [hsplit], ?_, ?_, haft⟩
      · simp only [argminIdx, heq, List.length_cons]
        omega
      · intro e he
        rcases List.mem_cons.mp he with rfl | he
        · exact hlt
        · exact hbef e he

/-- The index returned by `argminIdx` is in bounds on nonempty lists. -/
lemma argminIdx_lt_length (l : List Nat) (hne : l ≠ []) : argminIdx l < l.length := by
  obtain ⟨l₁, v, l₂, hsplit, hidx, -, -⟩ := argminIdx_spec l hne
  rw [hidx, hsplit, List.length_append, List.length_cons]
  omega

/-! ### Helper lemmas: the per-user tweet selection -/

/-- A selected row belongs to `data` and carries the requested user id. -/
lemma get_tweet_info_mem (data : List Row) (uid : Nat) (r : Row)
    (h : get_tweet_info data uid = some r) : r ∈ data ∧ r.user_id = uid := by
  have hme : r ∈ data.filter (fun s => s.user_id == uid) :=
    List.get?_mem h
  rcases List.mem_filter.mp hme with ⟨hmem, hbeq⟩
  exact ⟨hmem, by simpa using hbeq⟩

/-- If some row of `data` carries `uid`, `get_tweet_info` selects a row. -/
lemma get_tweet_info_isSome (data : List Row) (uid : Nat)
    (hex : ∃ row ∈ data, row.user_id = uid) :
    ∃ r, get_tweet_info data uid = some r := by
  obtain ⟨row, hrow, hid⟩ := hex
  have hmem : row ∈ data.filter (fun s => s.user_id == uid) :=
    List.mem_filter.mpr ⟨hrow, by simp [hid]⟩
  have hne : data.filter (fun s => s.user_id == uid) ≠ [] :=
    List.ne_nil_of_mem hmem
  have hnem : (data.filter (fun s => s.user_id == uid)).map Row.created_at ≠ [] := by
    simpa using hne
  have hlt := argminIdx_lt_length _ hnem
  rw [List.length_map] at hlt
  exact ⟨_, List.get?_eq_get hlt⟩

/-- The selected row is the first row of the filtered data attaining the
minimal `created_at`: rows before it in the filtered order are strictly
later, rows after it are no earlier. -/
lemma get_tweet_info_split (data : List Row) (uid : Nat) (r : Row)
    (h : get_tweet_info data uid = some r) :
    ∃ l₁ l₂, data.filter (fun s => s.user_id == uid) = l₁ ++ r :: l₂ ∧
      (∀ x ∈ l₁, r.created_at < x.created_at) ∧
      (∀ x ∈ l₂, r.created_at ≤ x.created_at) := by
  have hne : data.filter (fun s => s.user_id == uid) ≠ [] :=
    List.ne_nil_of_mem (List.get?_mem h)
  have hnem : (data.filter (fun s => s.user_id == uid)).map Row.created_at ≠ [] := by
    simpa using hne
  obtain ⟨m₁, v, m₂, hsplit, hidx, hbef, haft⟩ :=
    argminIdx_spec ((data.filter (fun s => s.user_id == uid)).map Row.created_at) hnem
  set f := data.filter (fun s => s.user_id == uid) with hf
  set k := argminIdx (f.map Row.created_at) with hk
  have hklen : k < f.length := by
    have := argminIdx_lt_length (f.map Row.created_at) hnem
    simpa using this
  -- the value at the argmin index of the mapped list is v
  have hvk : (f.map Row.created_at).get? k = some v := by
    rw [hsplit, hidx, List.get?_append_right (le_refl m₁.length)]
    simp
  -- and it is the timestamp of the selected row
  have hrk : f.get? k = some r := h
  have hrv : r.created_at = v := by
    have := List.get?_map Row.created_at f k
    rw [hrk] at this
    rw [hvk] at this
    simpa using this.symm
  have hmapTake : (f.map Row.created_at).take k = m₁ := by
    rw [hidx, hsplit]
    exact List.take_left _ _
  have hmapDrop : (f.map Row.created_at).drop (k + 1) = m₂ := by
    rw [hidx, hsplit]
    have hassoc : m₁ ++ v :: m₂ = (m₁ ++ [v]) ++ m₂ := by simp
    have hlen : m₁.length + 1 = (m₁ ++ [v]).length := by simp
    rw [hassoc, hlen]
    exact List.drop_left _ _
  refine ⟨f.take k, f.drop (k + 1), ?_, ?_, ?_⟩
  · -- f splits at position k around r
    have hdrop := List.drop_eq_get_cons (l := f) hklen
    have hget : f.get ⟨k, hklen⟩ = r := by
      obtain ⟨hb, hg⟩ := List.get?_eq_some.mp hrk
      exact hg
    calc f = f.take k ++ f.drop k := (List.take_append_drop k f).symm
      _ = f.take k ++ (r :: f.drop (k + 1)) := by rw [hdrop, hget]
  · intro x hx
    have hmx : x.created_at ∈ m₁ := by
      rw [← hmapTake, ← List.map_take]
      exact List.mem_map_of_mem Row.created_at hx
    rw [hrv]
    exact hbef _ hmx
  · intro x hx
    have hmx : x.created_at ∈ m₂ := by
      rw [← hmapDrop, ← List.map_drop]
      exact List.mem_map_of_mem Row.created_at hx
    rw [hrv]
    exact haft _ hmx

/-! ### Helper lemmas: the dispatch loop -/

/-- One dispatch iteration either completes a successful send — the
guard of line 642 held, so the candidate was in neither ledger, and
`df_users_DMed` gains exactly that candidate (lines 645-652) — or
leaves `df_users_DMed` untouched. -/
lemma dispatchStep_cases (prev : List Nat) (O : Oracles) (i uid : Nat) (df : List Nat) :
    ((dispatchStep prev O i uid df).1 = df ++ [uid] ∧
      (dispatchStep prev O i uid df).2 = Status.sent ∧ uid ∉ prev ∧ uid ∉ df) ∨
    ((dispatchStep prev O i uid df).1 = df ∧ (dispatchStep prev O i uid df).2 ≠ Status.sent) := by
  simp only [dispatchStep, friend_status_defaults]
  split_ifs with h1 h2 h3 h4 h5 <;> simp_all

/-- The guard of lines 667-675 can never print the
cannot-DM-due-to-permissions message: `can_DM` is the constant `True`
of lines 595-599. -/
lemma dispatchStep_ne_skippedCannotDM (prev : List Nat) (O : Oracles) (i uid : Nat)
    (df : List Nat) : (dispatchStep prev O i uid df).2 ≠ Status.skippedCannotDM := by
  simp only [dispatchStep, friend_status_defaults]
  split_ifs <;> simp_all

/-- A `failedPermanent` outcome (failed DM, friend-request fallback)
arises only with the candidate absent from `df_users_DMed`, and leaves
`df_users_DMed` unchanged. -/
lemma dispatchStep_failedPermanent (prev : List Nat) (O : Oracles) (i uid : Nat)
    (df : List Nat) (b : Bool)
    (h : (dispatchStep prev O i uid df).2 = Status.failedPermanent b) :
    (dispatchStep prev O i uid df).1 = df ∧ uid ∉ df := by
  revert h
  simp only [dispatchStep, friend_status_defaults]
  split_ifs with h1 h2 h3 h4 h5 <;> simp_all

/-- Unfolding equation of the dispatch loop on a cons cell. -/
lemma runDispatchAux_cons (prev : List Nat) (O : Oracles) (i : Nat) (df : List Nat)
    (uid : Nat) (rest : List Nat) :
    runDispatchAux prev O i df (uid :: rest) =
      ((runDispatchAux prev O (i + 1) (dispatchStep prev O i uid df).1 rest).1,
        (uid, (dispatchStep prev O i uid df).2) ::
          (runDispatchAux prev O (i + 1) (dispatchStep prev O i uid df).1 rest).2) :=
  rfl

/-- The membership predicate counted by `countSentFor`. -/
lemma sentPred_iff (u uid : Nat) (st : Status) :
    ((u == uid && isSentOutcome st) = true) ↔ (u = uid ∧ st = Status.sent) := by
  cases st <;> simp [isSentOutcome]

/-- `countSentFor` on a cons cell. -/
lemma countSentFor_cons (uid u : Nat) (st : Status) (tr : List (Nat × Status)) :
    countSentFor uid ((u, st) :: tr) =
      countSentFor uid tr + if u = uid ∧ st = Status.sent then 1 else 0 := by
  simp only [countSentFor, List.countP_cons]
  congr 1
  by_cases h : u = uid ∧ st = Status.sent
  · rw [if_pos ((sentPred_iff u uid st).mpr h), if_pos h]
  · rw [if_neg (fun hc => h ((sentPred_iff u uid st).mp hc)), if_neg h]

/-- `countSentFor` distributes over trace concatenation. -/
lemma countSentFor_append (uid : Nat) (t₁ t₂ : List (Nat × Status)) :
    countSentFor uid (t₁ ++ t₂) = countSentFor uid t₁ + countSentFor uid t₂ :=
  List.countP_append _ _ _

/-- Single-run ledger invariant: within one pass of the dispatch loop,
a user already in `df_users_DMed` is never sent to and stays in the
ledger; any user is sent to at most once; and a user who is sent to
ends the run inside the ledger. -/
lemma runAux_inv (prev : List Nat) (O : Oracles) (uid : Nat) :
    ∀ (cands : List Nat) (i : Nat) (df : List Nat),
      (uid ∈ df → countSentFor uid (runDispatchAux prev O i df cands).2 = 0) ∧
      countSentFor uid (runDispatchAux prev O i df cands).2 ≤ 1 ∧
      (uid ∈ df → uid ∈ (runDispatchAux prev O i df cands).1) ∧
      (1 ≤ countSentFor uid (runDispatchAux prev O i df cands).2 →
        uid ∈ (runDispatchAux prev O i df cands).1) := by
  intro cands
  induction cands with
  | nil =>
    intro i df
    simp [runDispatchAux, countSentFor]
  | cons c rest ih =>
    intro i df
    rw [runDispatchAux_cons]
    simp only
    rw [countSentFor_cons]
    rcases dispatchStep_cases prev O i c df with ⟨hdf, hst, hcp, hcd⟩ | ⟨hdf, hst⟩
    · -- successful send of c
      rw [hdf, hst]
      obtain ⟨ih0, ih1, ih2, ih3⟩ := ih (i + 1) (df ++ [c])
      by_cases hc : c = uid
      · subst hc
        have hmem : c ∈ df ++ [c] := by simp
        refine ⟨?_, ?_, ?_, ?_⟩
        · intro hdf0
          exact absurd hdf0 hcd
        · rw [ih0 hmem]
          simp
        · intro _
          exact ih2 hmem
        · intro _
          exact ih2 hmem
      · rw [if_neg (fun hand => hc hand.1)]
        refine ⟨?_, ?_, ?_, ?_⟩
        · intro hdf0
          rw [ih0 (by simp [hdf0])]
        · simpa using ih1
        · intro hdf0
          exact ih2 (by simp [hdf0])
        · intro hcount
          exact ih3 (by simpa using hcount)
    · -- no send happened at this step
      rw [hdf]
      rw [if_neg (fun hand => hst hand.2)]
      obtain ⟨ih0, ih1, ih2, ih3⟩ := ih (i + 1) df
      refine ⟨?_, ?_, ?_, ?_⟩
      · intro hdf0
        rw [ih0 hdf0]
      · simpa using ih1
      · exact ih2
      · intro hcount
        exact ih3 (by simpa using hcount)

/-- Cross-run ledger invariant: threading the exported
`df_users_DMed` from each run into the next, a user already in the
ledger is never sent to again and stays in the ledger; any user
receives at most one `sent` outcome over all runs; a user with a `sent`
outcome ends inside the final ledger. -/
lemma multiRun_inv (uid : Nat) :
    ∀ (runs : List (Oracles × List Nat)) (df : List Nat),
      (uid ∈ df → countSentFor uid (multiRun df runs).2 = 0 ∧ uid ∈ (multiRun df runs).1) ∧
      countSentFor uid (multiRun df runs).2 ≤ 1 ∧
      (1 ≤ countSentFor uid (multiRun df runs).2 → uid ∈ (multiRun df runs).1) := by
  intro runs
  induction runs with
  | nil =>
    intro df
    simp [multiRun, countSentFor]
  | cons run rest ih =>
    intro df
    obtain ⟨O, cands⟩ := run
    obtain ⟨r0, r1, r2, r3⟩ := runAux_inv df O uid cands 0 df
    obtain ⟨t0, t1, t2⟩ := ih (runDispatch df O cands).1
    simp only [runDispatch] at t0 t1 t2
    have hunfold : multiRun df ((O, cands) :: rest) =
        ((multiRun (runDispatchAux df O 0 df cands).1 rest).1,
          (runDispatchAux df O 0 df cands).2 ++
            (multiRun (runDispatchAux df O 0 df cands).1 rest).2) := rfl
    rw [hunfold]
    simp only
    rw [countSentFor_append]
    refine ⟨?_, ?_, ?_⟩
    · intro hdf0
      have hr0 := r0 hdf0
      have hr2 := r2 hdf0
      obtain ⟨ht0, ht1⟩ := t0 hr2
      exact ⟨by rw [hr0, ht0], ht1⟩
    · by_cases hsent : 1 ≤ countSentFor uid (runDispatchAux df O 0 df cands).2
      · have hmem := r3 hsent
        obtain ⟨ht0, _⟩ := t0 hmem
        omega
      · have hzero : countSentFor uid (runDispatchAux df O 0 df cands).2 = 0 := by omega
        rw [hzero]
        simpa using t1
    · intro hcount
      by_cases htail : 1 ≤ countSentFor uid (multiRun (runDispatchAux df O 0 df cands).1 rest).2
      · exact t2 htail
      · have hz : countSentFor uid (multiRun (runDispatchAux df O 0 df cands).1 rest).2 = 0 := by
          omega
        have hrun : 1 ≤ countSentFor uid (runDispatchAux df O 0 df cands).2 := by omega
        exact (t0 (r3 hrun)).2

/-- No trace entry of a dispatch run carries the
`skippedCannotDM` outcome: the permissions branch of lines 672-673 is
dead while `can_DM` is the hard-coded `True` of line 599. -/
lemma runAux_status_ne_cannotDM (prev : List Nat) (O : Oracles) :
    ∀ (cands : List Nat) (i : Nat) (df : List Nat) (uid : Nat) (st : Status),
      (uid, st) ∈ (runDispatchAux prev O i df cands).2 → st ≠ Status.skippedCannotDM := by
  intro cands
  induction cands with
  | nil =>
    intro i df uid st h
    simp [runDispatchAux] at h
  | cons c rest ih =>
    intro i df uid st h
    rw [runDispatchAux_cons] at h
    rcases List.mem_cons.mp h with h | h
    · rw [Prod.mk.injEq] at h
      rw [h.2]
      exact dispatchStep_ne_skippedCannotDM prev O i c df
    · exact ih (i + 1) _ uid st h

/-- Every row of `data` contributes exactly one candidate carrying its
own `user_id` to the Part I output, in input order. -/
lemma buildOutrage_map_user_id (data : List Row) :
    (buildOutrageUsersInfo data).map Row.user_id = data.map Row.user_id := by
  suffices h : ∀ l : List Row, (∀ row ∈ l, row ∈ data) →
      (l.filterMap (fun row => get_tweet_info data row.user_id)).map Row.user_id =
        l.map Row.user_id by
    exact h data (fun _ hx => hx)
  intro l
  induction l with
  | nil =>
    intro _
    simp
  | cons row rest ih =>
    intro hl
    have hrow : row ∈ data := hl row (List.mem_cons_self row rest)
    obtain ⟨r, hr⟩ := get_tweet_info_isSome data row.user_id ⟨row, hrow, rfl⟩
    have huid : r.user_id = row.user_id := (get_tweet_info_mem data row.user_id r hr).2
    rw [List.filterMap_cons, hr]
    simp only [List.map_cons, huid]
    rw [ih (fun x hx => hl x (List.mem_cons_of_mem row hx))]

/-- All-clear oracles: no exceptions, every send and friend request
succeeds.  Used to instantiate claims at concrete inputs. -/
def oraclesAllOk : Oracles :=
  ⟨fun _ => false, fun _ => false, fun _ => true, fun _ => true⟩

/-- Oracles raising `TweepError` exactly at loop counter `0`. -/
def oraclesRateLimitFirst : Oracles :=
  ⟨fun i => i == 0, fun _ => false, fun _ => true, fun _ => true⟩

/-- Oracles in which every DM send fails and every fallback friend
request succeeds. -/
def oraclesSendFail : Oracles :=
  ⟨fun _ => false, fun _ => false, fun _ => false, fun _ => true⟩

/-! ### Claim theorems -/

/-- C1.  At-most-once delivery: for every `user_id`, across any number
of sequential dispatcher runs — each run importing the users-DMed
ledger exported by the previous one — over arbitrarily overlapping
candidate batches, at most one `sent` outcome is ever recorded for that
user.  The mechanism is the embedded one: the guard of line 642 checks
both `user_ids_previously_messaged` and the current `df_users_DMed`
immediately before sending, and lines 645-652 append the user to
`df_users_DMed` before the loop advances (see `dispatchStep`). -/
theorem at_most_once_sent (df : List Nat) (runs : List (Oracles × List Nat)) (uid : Nat) :
    countSentFor uid (multiRun df runs).2 ≤ 1 :=
  (multiRun_inv uid runs df).2.1

/-- C2 counterexample.  With a rate-limit signal at the first candidate
of the batch `[1, 2]`, the loop records the 15-minute pause for
candidate `1` and then immediately processes candidate `2`; candidate
`1` is never retried — no `sent` outcome for it exists anywhere in the
trace — contradicting the claim that after the pause the same candidate
is the first one retried. -/
theorem rate_limit_no_retry_cex :
    (runDispatch [] oraclesRateLimitFirst [1, 2]).2 =
      [(1, Status.deferredRateLimit 900), (2, Status.sent)] ∧
    (1, Status.sent) ∉ (runDispatch [] oraclesRateLimitFirst [1, 2]).2 := by
  decide

/-- C2 amended.  When the permission step of iteration `i` raises the
rate-limit error, the whole loop pauses for the fixed
`seconds_waiting = 15 * 60` seconds, the ledger is left untouched, and
the loop then continues with the *next* candidate: the rate-limited
candidate receives only the `deferredRateLimit` outcome and is not
retried within the run. -/
theorem rate_limit_pause_then_next (prev : List Nat) (O : Oracles) (i : Nat) (df : List Nat)
    (uid : Nat) (rest : List Nat) (h : O.tweepErr i = true) :
    runDispatchAux prev O i df (uid :: rest) =
      ((runDispatchAux prev O (i + 1) df rest).1,
        (uid, Status.deferredRateLimit seconds_waiting) ::
          (runDispatchAux prev O (i + 1) df rest).2) ∧
    seconds_waiting = 15 * 60 := by
  refine ⟨?_, rfl⟩
  rw [runDispatchAux_cons]
  have hstep : dispatchStep prev O i uid df = (df, Status.deferredRateLimit seconds_waiting) := by
    simp [dispatchStep, h]
  rw [hstep]

/-- Witness for the C2 amended theorem at a concrete run. -/
theorem rate_limit_pause_then_next_witness :
    oraclesRateLimitFirst.tweepErr 0 = true ∧
    (runDispatchAux [] oraclesRateLimitFirst 0 [] [1, 2] =
      ((runDispatchAux [] oraclesRateLimitFirst 1 [] [2]).1,
        (1, Status.deferredRateLimit seconds_waiting) ::
          (runDispatchAux [] oraclesRateLimitFirst 1 [] [2]).2) ∧
      seconds_waiting = 15 * 60) :=
  ⟨by decide, rate_limit_pause_then_next [] oraclesRateLimitFirst 0 [] 1 [2] (by decide)⟩

/-- C3 counterexample.  Two successful sends in one run: the second
candidate is processed directly after the first send, and no
ledger-store event occurs anywhere before run end — the trace holds the
two outcomes first and both uploads last, contradicting incremental
write-through persistence after every successful send. -/
theorem write_through_persistence_cex :
    mainPartII_trace [] oraclesAllOk [1, 2] =
      [Event.outcome 1 Status.sent, Event.outcome 2 Status.sent,
        Event.store_outrage_info_file, Event.store_users_DMed_file] ∧
    Event.store_users_DMed_file ∉ (mainPartII_trace [] oraclesAllOk [1, 2]).take 2 := by
  decide

/-- C3 amended.  After every successful send the user is appended to
the in-memory `df_users_DMed` before the loop advances, but the updated
ledger is persisted to the external store exactly once, wholesale, as
the final event of the run — there is no incremental per-send
persistence. -/
theorem sent_recorded_in_memory_stored_at_end (prev : List Nat) (O : Oracles)
    (i uid : Nat) (df dfInit : List Nat) (cands : List Nat)
    (h : (dispatchStep prev O i uid df).2 = Status.sent) :
    (dispatchStep prev O i uid df).1 = df ++ [uid] ∧
    (mainPartII_trace dfInit O cands).countP
      (fun e => e == Event.store_users_DMed_file) = 1 ∧
    (mainPartII_trace dfInit O cands).getLast? = some Event.store_users_DMed_file := by
  refine ⟨?_, ?_, ?_⟩
  · rcases dispatchStep_cases prev O i uid df with ⟨h1, h2, h3, h4⟩ | ⟨h1, h2⟩
    · exact h1
    · exact absurd h h2
  · simp only [mainPartII_trace]
    rw [List.countP_append, List.countP_map]
    have h0 : List.countP ((fun e => e == Event.store_users_DMed_file) ∘
        (fun p : Nat × Status => Event.outcome p.1 p.2)) (runDispatch dfInit O cands).2 = 0 := by
      apply List.countP_eq_zero.mpr
      intro a _
      simp [Function.comp]
    rw [h0]
    decide
  · simp only [mainPartII_trace]
    have hsplit : (runDispatch dfInit O cands).2.map (fun p => Event.outcome p.1 p.2) ++
        [Event.store_outrage_info_file, Event.store_users_DMed_file] =
        ((runDispatch dfInit O cands).2.map (fun p => Event.outcome p.1 p.2) ++
          [Event.store_outrage_info_file]) ++ [Event.store_users_DMed_file] := by
      simp
    rw [hsplit, List.getLast?_concat]

/-- Witness for the C3 amended theorem at a concrete run. -/
theorem sent_recorded_in_memory_stored_at_end_witness :
    (dispatchStep [] oraclesAllOk 0 1 []).2 = Status.sent ∧
    ((dispatchStep [] oraclesAllOk 0 1 []).1 = [] ++ [1] ∧
      (mainPartII_trace [] oraclesAllOk [1]).countP
        (fun e => e == Event.store_users_DMed_file) = 1 ∧
      (mainPartII_trace [] oraclesAllOk [1]).getLast? = some Event.store_users_DMed_file) :=
  ⟨by decide, sent_recorded_in_memory_stored_at_end [] oraclesAllOk 0 1 [] [] [1] (by decide)⟩

/-- C4 counterexample.  When the platform explicitly reports
`can_dm = false` but the relationship is mutual, the source resolves
`can_DM = true` (lines 305-308), whereas the claimed flag-first policy
resolves `false`. -/
theorem resolver_order_cex :
    (see_friend_and_DM_status true true false false).2.2.2 = true ∧
    specResolve_dm_capable (some false) true true = false := by
  decide

/-- C4 amended.  The source evaluates the mutual-relationship test
first: a mutual relationship resolves `can_DM = true` regardless of the
platform flag, and the platform flag is used directly only when the
relationship is not mutual. -/
theorem resolver_mutual_first (followed_by following can_dm rq : Bool)
    (h : (followed_by && following) = false) :
    (see_friend_and_DM_status followed_by following can_dm rq).2.2.2 = can_dm ∧
    (see_friend_and_DM_status true true can_dm rq).2.2.2 = true := by
  constructor
  · simp [see_friend_and_DM_status, h]
  · simp [see_friend_and_DM_status]

/-- Witness for the C4 amended theorem. -/
theorem resolver_mutual_first_witness :
    ((false && true) = false) ∧
    ((see_friend_and_DM_status false true true false).2.2.2 = true ∧
      (see_friend_and_DM_status true true true false).2.2.2 = true) :=
  ⟨by decide, resolver_mutual_first false true true false (by decide)⟩

/-- C5.  For every candidate not present in the ledger loaded at run
start, the loop assigns `can_DM = true` (and `you_follow_them = true`)
unconditionally — the `see_friend_and_DM_status` call is commented out,
its place taken by the constants of `friend_status_defaults` — so no
such candidate ever receives the cannot-DM-due-to-permissions outcome
of lines 672-673. -/
theorem can_DM_unconditionally_true (dfInit : List Nat) (O : Oracles) (cands : List Nat)
    (uid : Nat) (st : Status) (hmem : (uid, st) ∈ (runDispatch dfInit O cands).2)
    (hnew : uid ∉ dfInit) :
    friend_status_defaults = (true, true, false, true) ∧ st ≠ Status.skippedCannotDM :=
  ⟨rfl, runAux_status_ne_cannotDM dfInit O cands 0 dfInit uid st hmem⟩

/-- Witness for the C5 theorem at a concrete run. -/
theorem can_DM_unconditionally_true_witness :
    ((1, Status.sent) ∈ (runDispatch [] oraclesAllOk [1]).2 ∧ (1 : Nat) ∉ ([] : List Nat)) ∧
    (friend_status_defaults = (true, true, false, true) ∧
      Status.sent ≠ Status.skippedCannotDM) :=
  ⟨⟨by decide, by decide⟩,
    can_DM_unconditionally_true [] oraclesAllOk [1] 1 Status.sent (by decide) (by decide)⟩

/-- A classifier probability of `99/100`, above threshold, written as a
reduced rational literal so concrete runs evaluate by kernel
reduction. -/
def demoProb : ℚ := ⟨99, 100, by decide, by decide⟩

/-- Two tweets of user `1` with equal `created_at` and descending
`tweet_id` in row order, both above threshold. -/
def demoRowsC6 : List Row :=
  [⟨1, 5, "a", "t1", 7, demoProb⟩, ⟨1, 2, "a", "t0", 7, demoProb⟩]

/-- C6 counterexample.  On a `created_at` tie, `np.argmin` returns the
first row in dataframe order, so `get_tweet_info` selects `tweet_id`
`5` — not the smallest `post_id` `2` the claim requires. -/
theorem earliest_tiebreak_cex :
    (get_tweet_info demoRowsC6 1).map Row.tweet_id = some 5 ∧
    (get_tweet_info demoRowsC6 1).map Row.tweet_id ≠ some 2 := by
  decide

/-- C6 amended.  For every user, the selected candidate post is one of
the posts of that user with the earliest `created_at`; ties are broken
by position — the selected row is the *first* row in dataframe order
attaining the minimum (`np.argmin` first-occurrence semantics), not the
one with the smallest `post_id`: all rows filtered before it are
strictly later, all rows after it no earlier. -/
theorem earliest_post_first_occurrence (data : List Row) (uid : Nat) (r : Row)
    (h : get_tweet_info data uid = some r) :
    r.user_id = uid ∧
    ∃ l₁ l₂, data.filter (fun s => s.user_id == uid) = l₁ ++ r :: l₂ ∧
      (∀ x ∈ l₁, r.created_at < x.created_at) ∧
      (∀ x ∈ l₂, r.created_at ≤ x.created_at) :=
  ⟨(get_tweet_info_mem data uid r h).2, get_tweet_info_split data uid r h⟩

/-- Rows for the C6 witness: user `1` with a later and an earlier
tweet. -/
def demoRowsC6w : List Row :=
  [⟨1, 5, "a", "t1", 9, demoProb⟩, ⟨1, 2, "a", "t0", 4, demoProb⟩]

/-- The row the selector picks out of `demoRowsC6w`. -/
def demoRowC6w : Row := ⟨1, 2, "a", "t0", 4, demoProb⟩

/-- Witness for the C6 amended theorem at a concrete dataframe. -/
theorem earliest_post_first_occurrence_witness :
    get_tweet_info demoRowsC6w 1 = some demoRowC6w ∧
    (demoRowC6w.user_id = 1 ∧
      ∃ l₁ l₂, demoRowsC6w.filter (fun s => s.user_id == 1) = l₁ ++ demoRowC6w :: l₂ ∧
        (∀ x ∈ l₁, demoRowC6w.created_at < x.created_at) ∧
        (∀ x ∈ l₂, demoRowC6w.created_at ≤ x.created_at)) :=
  ⟨by decide, earliest_post_first_occurrence demoRowsC6w 1 demoRowC6w (by decide)⟩

/-- A batch whose rows carry user ids `[2, 1, 1]`, all above
threshold. -/
def demoRowsC7 : List Row :=
  [⟨2, 9, "b", "t2", 3, demoProb⟩, ⟨1, 5, "a", "t1", 7, demoProb⟩,
    ⟨1, 2, "a", "t0", 4, demoProb⟩]

/-- C7 counterexample.  The selector output repeats user `1` (one entry
per input row, not one per distinct user) and follows the input row
order `[2, 1, 1]` rather than being sorted by `user_id`. -/
theorem selector_shape_cex :
    (outrage_users_info demoRowsC7).map Row.user_id = [2, 1, 1] ∧
    ¬ ((outrage_users_info demoRowsC7).map Row.user_id).Nodup ∧
    ¬ List.Sorted (· ≤ ·) ((outrage_users_info demoRowsC7).map Row.user_id) := by
  refine ⟨by decide, by decide, ?_⟩
  intro hsorted
  have h21 : (2 : Nat) ≤ 1 := by
    have := hsorted
    rw [show (outrage_users_info demoRowsC7).map Row.user_id = [2, 1, 1] from by decide] at this
    exact List.rel_of_sorted_cons this 1 (List.mem_cons_self 1 [1])
  omega

/-- C7 amended.  The selector emits exactly one candidate per input row
— a user with several rows appears once per row, each time with the
same chosen post — in the input row order (which also makes reruns over
the same input deterministic); the threshold filter then subselects
preserving that order.  Deduplication per user happens only later, in
the dispatch loop, through the ledger checks. -/
theorem one_candidate_per_input_row (data : List Row) :
    (buildOutrageUsersInfo data).map Row.user_id = data.map Row.user_id ∧
    (outrage_users_info data).Sublist (buildOutrageUsersInfo data) :=
  ⟨buildOutrage_map_user_id data, List.filter_sublist _⟩

/-- C8.  When the DM attempt fails (not rate-limited) the loop falls
through to the best-effort friend request and `df_users_DMed` is left
unchanged for that candidate: the user was absent before and remains
absent after, whether or not the friend request succeeds. -/
theorem fallback_never_writes_ledger (prev : List Nat) (O : Oracles) (i uid : Nat)
    (df : List Nat) (b : Bool)
    (h : (dispatchStep prev O i uid df).2 = Status.failedPermanent b) :
    (dispatchStep prev O i uid df).1 = df ∧ uid ∉ (dispatchStep prev O i uid df).1 := by
  obtain ⟨h1, h2⟩ := dispatchStep_failedPermanent prev O i uid df b h
  refine ⟨h1, ?_⟩
  rw [h1]
  exact h2

/-- Witness for the C8 theorem: a failed DM whose fallback friend
request succeeds. -/
theorem fallback_never_writes_ledger_witness :
    (dispatchStep [] oraclesSendFail 0 1 []).2 = Status.failedPermanent true ∧
    ((dispatchStep [] oraclesSendFail 0 1 []).1 = [] ∧
      (1 : Nat) ∉ (dispatchStep [] oraclesSendFail 0 1 []).1) :=
  ⟨by decide, fallback_never_writes_ledger [] oraclesSendFail 0 1 [] true (by decide)⟩

/-- C9.  Candidate filtering keeps exactly the candidates whose score
is strictly greater than the threshold `0.95`: a post with score equal
to the threshold is excluded, any post with a strictly greater score is
included. -/
theorem threshold_strictly_greater (data : List Row) (r : Row) :
    (r ∈ outrage_users_info data ↔
      r ∈ buildOutrageUsersInfo data ∧ score_threshold < r.gru_prob) ∧
    score_threshold = 95 / 100 := by
  refine ⟨?_, score_threshold_eq⟩
  simp [outrage_users_info, List.mem_filter]

/-- C10 counterexample.  With the ledger object absent from the
external store, the load sequence ends in the uncaught
`FileNotFoundError` of `pd.read_csv` (line 569) — the run does not
proceed with an empty ledger. -/
theorem ledger_absent_cex :
    loadUsersDMed none = Except.error "FileNotFoundError" ∧
    loadUsersDMed none ≠ Except.ok [] :=
  ⟨rfl, fun h => Except.noConfusion h⟩

/-- C10 amended.  A present ledger object loads as-is, but an absent
one is *not* treated as an empty first-run ledger: the extraction error
is caught and logged (lines 553-566), yet the subsequent unguarded
`pd.read_csv` of the missing local file raises `FileNotFoundError`,
which propagates out of `main` and terminates the run. -/
theorem ledger_absence_is_error (rows : List Nat) :
    loadUsersDMed (some rows) = Except.ok rows ∧
    loadUsersDMed none = Except.error "FileNotFoundError" :=
  ⟨rfl, rfl⟩
